import Mathlib

/-!
# Verification of the PHI detection pipeline

Shallow embedding of the core of the `phi-detector-app` repository:
the input router, the format extractors' serialization, the exclusion-clause
builder, the two LLM-stage response parsers (`phi_identifier`, `phi_rationale`
in `main.py`), and the span resolver / highlighter
(`highlight_phi_instances` in `streamlit_app.py`).

Python strings are modelled as `List Char`; Python's `json.loads` (an external
library call that either returns a parsed value or raises) is modelled as an
oracle parameter `jsonLoads : Str → Option PhiList`, where `none` stands for a
raised exception.
-/

namespace PhiDetector

/-- Python strings are modelled as lists of characters. -/
abbrev Str := List Char

/-- The whitespace characters removed by Python's `str.strip()`. -/
def pyIsSpace (c : Char) : Bool :=
  c = ' ' || c = '\t' || c = '\n' || c = '\r' || c = '\x0b' || c = '\x0c'

/-- Python `str.strip()`: remove leading and trailing whitespace. -/
def pyStrip (s : Str) : Str :=
  ((s.dropWhile pyIsSpace).reverse.dropWhile pyIsSpace).reverse

/-- One parsed PHI instance (a JSON object from the service response).
`value` is `none` when the `'value'` key is absent; likewise for the
`'PHI type'`, `'type'` and `'PHI risk rationale'` keys. -/
structure PhiInstance where
  value : Option Str
  phiTypeAttr : Option Str
  typeAttr : Option Str
  rationaleAttr : Option Str
deriving DecidableEq, Repr

/-- One entry of the findings history: a list of PHI instances. -/
abbrev PhiList := List PhiInstance

/- ## Input router (`main.py`, `input_router`) -/

/-- The three extractor nodes the router can select. -/
inductive Extractor where
  | ocr
  | pdfParser
  | csvParser
deriving DecidableEq, Repr

/-- `input_router` from `main.py`: dispatch on the file extension, raising
`ValueError("Invalid file type")` (modelled as `Except.error`) otherwise. -/
def input_router (file_ext : Str) : Except Str Extractor :=
  if file_ext = "png".data then .ok .ocr
  else if file_ext = "pdf".data then .ok .pdfParser
  else if file_ext = "csv".data then .ok .csvParser
  else .error "Invalid file type".data

/- ## Exclusion clause (`main.py`, `get_exclusion`) -/

/-- `get_exclusion` from `main.py`: renders the exclusion filter as a natural
language clause.  The Python code appends `" {item},"` for every item but the
last, `" and"` when there is more than one item, and `" {last}."` at the end. -/
def get_exclusion (filter_list : List Str) : Str :=
  match filter_list with
  | [] => []
  | f :: rest =>
      " except PHI instances of the type".data
      ++ ((f :: rest).dropLast.foldl
            (fun acc item => acc ++ " ".data ++ item ++ ",".data) [])
      ++ (if (f :: rest).length > 1 then " and".data else [])
      ++ " ".data ++ (f :: rest).getLast (List.cons_ne_nil f rest) ++ ".".data

/-- Comma-separated rendering with `"and"` before the last element, as the
spec describes the exclusion clause body: `A, B, and C`. -/
def commaAnd : List Str → Str
  | [] => []
  | [a] => a
  | [a, b] => a ++ ", and ".data ++ b
  | a :: rest => a ++ ", ".data ++ commaAnd rest

/-- The exclusion clause as worded in the spec: empty for an empty filter,
otherwise `" except PHI instances of the type "` followed by the comma/`and`
list of categories and a final period. -/
def exclusionClauseSpec (filter_list : List Str) : Str :=
  match filter_list with
  | [] => []
  | _ => " except PHI instances of the type ".data ++ commaAnd filter_list ++ ".".data

/- ## Tabular extractor (`main.py`, `csv_parser_tool`) -/

/-- The serialization loop of `csv_parser_tool` in `main.py`: the dataframe is
modelled by its column list and its records (`df.iterrows()` yields rows with
0-based ordinal indices; `zip(row[1].values, df.columns)` pairs each value
with its column).  Each row contributes `"Index: {i}\n"`, one
`"{col}: {item}\n"` line per zipped pair, and a final `"\n"`. -/
def csv_parser_tool (columns : List Str) (records : List (List Str)) : Str :=
  records.enum.foldl
    (fun text ir =>
      let text := text ++ "Index: ".data ++ (toString ir.1).data ++ "\n".data
      let text := (ir.2.zip columns).foldl
        (fun t p => t ++ p.2 ++ ": ".data ++ p.1 ++ "\n".data) text
      text ++ "\n".data)
    []

/- ## Stage response parsing (`main.py`, `phi_identifier` / `phi_rationale`) -/

/-- Python `str.find(c)` restricted to a single character: index of the first
occurrence, or `-1` when absent. -/
def pyFindChar (s : Str) (c : Char) : Int :=
  match s.findIdx? (· = c) with
  | some i => (i : Int)
  | none => -1

/-- Python `str.rfind(c)` restricted to a single character: index of the last
occurrence, or `-1` when absent. -/
def pyRFindChar (s : Str) (c : Char) : Int :=
  match s.reverse.findIdx? (· = c) with
  | some i => (s.length : Int) - 1 - i
  | none => -1

/-- Python slice `s[a:b]` for `0 ≤ a ≤ b`. -/
def pySlice (s : Str) (a b : Nat) : Str := (s.drop a).take (b - a)

/-- The bracketed-region extraction shared by both stages (`main.py` lines
122-124 and 156-158): `json_start = content.find('[')`,
`json_end = content.rfind(']') + 1`, valid when `json_start >= 0` and
`json_end > json_start`. -/
def bracketSlice (content : Str) : Option Str :=
  let json_start := pyFindChar content '['
  let json_end := pyRFindChar content ']' + 1
  if json_start ≥ 0 ∧ json_end > json_start then
    some (pySlice content json_start.toNat json_end.toNat)
  else none

/-- The `try` block of `phi_identifier` (`main.py` lines 118-127), producing
the value of `phi_instances` or `none` when `json.loads` raised.  `jsonLoads`
models `json.loads`: `none` stands for a raised exception.  When no bracketed
region exists, `phi_instances = []` without calling `json.loads`. -/
def detectionParsed (jsonLoads : Str → Option PhiList) (content : Str) :
    Option PhiList :=
  if (pyStrip content).head? = some '[' then jsonLoads (pyStrip content)
  else
    match bracketSlice content with
    | some s => jsonLoads s
    | none => some []

/-- `phi_identifier`'s history update (`main.py` lines 128-130): append the
parsed list, or an empty list when `json.loads` raised. -/
def phi_identifier (jsonLoads : Str → Option PhiList) (content : Str)
    (instances : List PhiList) : List PhiList :=
  match detectionParsed jsonLoads content with
  | some l => instances ++ [l]
  | none => instances ++ [[]]

/-- The `try` block of `phi_rationale` (`main.py` lines 152-161) applied to
the already-stripped content (line 150 strips the response before the block;
line 153 strips it again).  When no bracketed region exists,
`phi_instances = doc_state["instances"][-1]`, the previous entry. -/
def rationaleParsed (jsonLoads : Str → Option PhiList) (content : Str)
    (prev : PhiList) : Option PhiList :=
  if (pyStrip content).head? = some '[' then jsonLoads content
  else
    match bracketSlice content with
    | some s => jsonLoads s
    | none => some prev

/-- `phi_rationale` (`main.py` lines 138-165).  The function reads
`instances[-1]` while building its prompt (line 147), which raises on an
empty history — modelled by `none`.  Otherwise it strips the response
(line 150), runs the parse block, and appends the result; when `json.loads`
raised, it appends a copy of the previous entry (line 164). -/
def phi_rationale (jsonLoads : Str → Option PhiList) (rawContent : Str)
    (instances : List PhiList) : Option (List PhiList) :=
  match instances.getLast? with
  | none => none
  | some prev =>
    match rationaleParsed jsonLoads (pyStrip rawContent) prev with
    | some l => some (instances ++ [l])
    | none => some (instances ++ [prev])

/-- The response body cannot be parsed into a JSON array along the Detection
Stage's branch structure: either no bracketed region is found, or the string
the code hands to `json.loads` makes it raise. -/
def detectionParseFails (jsonLoads : Str → Option PhiList) (content : Str) : Bool :=
  if (pyStrip content).head? = some '[' then (jsonLoads (pyStrip content)).isNone
  else
    match bracketSlice content with
    | some s => (jsonLoads s).isNone
    | none => true

/-- The response body cannot be parsed into a JSON array along the
Classification Stage's branch structure (which strips the response first). -/
def rationaleParseFails (jsonLoads : Str → Option PhiList) (rawContent : Str) : Bool :=
  if (pyStrip (pyStrip rawContent)).head? = some '[' then
    (jsonLoads (pyStrip rawContent)).isNone
  else
    match bracketSlice (pyStrip rawContent) with
    | some s => (jsonLoads s).isNone
    | none => true

/- ## Span resolver (`streamlit_app.py`, `highlight_phi_instances`) -/

/-- One accepted span, as built at `streamlit_app.py` lines 197-203. -/
structure Span where
  start : Nat
  «end» : Nat
  value : Str
  phiType : Str
  orig : PhiInstance
deriving DecidableEq, Repr

/-- `instance.get('PHI type', instance.get('type', 'Unknown'))`. -/
def instPhiType (inst : PhiInstance) : Str :=
  match inst.phiTypeAttr with
  | some t => t
  | none =>
    match inst.typeAttr with
    | some t => t
    | none => "Unknown".data

/-- Auxiliary scan for `text.find(value, start)`: try the `n` candidate
positions `start, start+1, …, start+n-1` in order. -/
def pyFindAux (text value : Str) : Nat → Nat → Option Nat
  | 0, _ => none
  | n + 1, start =>
    if value.isPrefixOf (text.drop start) then some start
    else pyFindAux text value n (start + 1)

/-- Python `text.find(value, start)` (with `none` for `-1`): the least
position in `[start, len(text)]` where `value` occurs as a substring.
Python tries exactly the positions `start..len(text)`, hence the
`text.length + 1 - start` candidates. -/
def pyFind (text value : Str) (start : Nat) : Option Nat :=
  pyFindAux text value (text.length + 1 - start) start

/-- The inner overlap test of `highlight_phi_instances` (lines 190-194):
position `pos` (with match length `len`) conflicts with some already
accepted span. -/
def overlapsExisting (pos len : Nat) (acc : List Span) : Bool :=
  acc.any fun e => !(decide (pos ≥ e.«end») || decide (pos + len ≤ e.start))

/-- The `while True` search loop of `highlight_phi_instances`
(lines 183-206), with an explicit fuel argument.  Each iteration advances
`search_start` to `pos + 1 > search_start`, and `search_start` never exceeds
`text.length + 1`, so `text.length + 2` iterations always suffice (see
`searchPos`). -/
def searchPosAux (text value : Str) (acc : List Span) : Nat → Nat → Option Nat
  | 0, _ => none
  | fuel + 1, searchStart =>
    match pyFind text value searchStart with
    | none => none
    | some pos =>
      if overlapsExisting pos value.length acc then
        searchPosAux text value acc fuel (pos + 1)
      else some pos

/-- The search loop started at `search_start = 0` with sufficient fuel. -/
def searchPos (text value : Str) (acc : List Span) : Option Nat :=
  searchPosAux text value acc (text.length + 2) 0

/-- The body of the `for instance in phi_instances` loop (lines 177-206):
given the instances accepted so far, process one instance, appending at most
one accepted span. -/
def processInstance (text : Str) (acc : List Span) (inst : PhiInstance) : List Span :=
  match inst.value with
  | none => acc
  | some v =>
    if v = [] then acc
    else
      let value := pyStrip v
      match searchPos text value acc with
      | some pos =>
          acc ++ [{ start := pos, «end» := pos + value.length, value := value,
                    phiType := instPhiType inst, orig := inst }]
      | none => acc

/-- The accepted-span collection phase of `highlight_phi_instances`:
`instances_with_positions` after the main loop. -/
def resolveSpans (text : Str) (phi_instances : List PhiInstance) : List Span :=
  phi_instances.foldl (processInstance text) []

/-- The tooltip string built at lines 219-221. -/
def tooltipInfo (sp : Span) : Str :=
  "PHI Type: ".data ++ sp.phiType
    ++ match sp.orig.rationaleAttr with
       | some r => "&#10;Risk: ".data ++ r
       | none => []

/-- The highlighted replacement markup built at line 224. -/
def highlightedValue (sp : Span) : Str :=
  "<span class=\"phi-highlight\" title=\"".data ++ tooltipInfo sp
    ++ "\">".data ++ sp.value ++ "</span>".data

/-- One splice step of the highlighting loop (line 227):
`highlighted_text[:start] + highlighted_value + highlighted_text[end:]`. -/
def spliceOne (t : Str) (sp : Span) : Str :=
  t.take sp.start ++ highlightedValue sp ++ t.drop sp.«end»

/-- Stable insertion by descending `start`: the new element is placed before
the first existing element whose `start` is not strictly greater, so elements
with equal `start` keep their relative order. -/
def insertDescByStart (sp : Span) : List Span → List Span
  | [] => [sp]
  | b :: rest =>
    if b.start > sp.start then b :: insertDescByStart sp rest
    else sp :: b :: rest

/-- `instances_with_positions.sort(key=lambda x: x['start'], reverse=True)`
(line 209): Python's `list.sort` is a stable sort, realized here as a stable
insertion sort by descending `start` (ties keep list order). -/
def sortDescByStart : List Span → List Span
  | [] => []
  | a :: rest => insertDescByStart a (sortDescByStart rest)

/-- The markup-application phase (lines 208-227): sort the accepted spans by
descending start, then splice each in turn. -/
def applyHighlighting (t : Str) (spans : List Span) : Str :=
  (sortDescByStart spans).foldl spliceOne t

/-- The `phi_instances` argument of `highlight_phi_instances`: either not a
Python list at all, or a list of instances. -/
inductive PhiArg where
  | notList
  | ofList (l : List PhiInstance)

/-- `highlight_phi_instances` from `streamlit_app.py`.  The guard at line 166
returns the text unchanged when `phi_instances` is falsy or not a list. -/
def highlight_phi_instances (text : Str) (phi_instances : PhiArg) : Str :=
  match phi_instances with
  | .notList => text
  | .ofList l =>
    if l = [] then text
    else applyHighlighting text (resolveSpans text l)

/-- Modelled from the spec (§4.5 step 4): the reference simultaneous
annotation of `text`, for spans listed in ascending order starting from
offset `i` — the text between spans interleaved with each span's markup at
its original position. -/
def refAnnotate (t : Str) (i : Nat) : List Span → Str
  | [] => t.drop i
  | sp :: rest =>
      (t.drop i).take (sp.start - i) ++ highlightedValue sp
        ++ refAnnotate t sp.«end» rest

/-- The spans form an ascending chain from offset `i`, each within a text of
length `len`: `i ≤ start ≤ end ≤` next span's start, ending `≤ len`. -/
def spanChainB (len : Nat) : Nat → List Span → Bool
  | _, [] => true
  | i, sp :: rest =>
      decide (i ≤ sp.start) && decide (sp.start ≤ sp.«end») &&
      decide (sp.«end» ≤ len) && spanChainB len sp.«end» rest

/-- `value` occurs in `text` at position `p` (Python's `find` only reports
positions within the string, hence `p ≤ text.length`). -/
def occursAt (text value : Str) (p : Nat) : Prop :=
  p ≤ text.length ∧ value.isPrefixOf (text.drop p) = true

instance (text value : Str) (p : Nat) : Decidable (occursAt text value p) :=
  inferInstanceAs (Decidable (_ ∧ _))

/-- Two spans do not overlap: one ends before (or exactly where) the other
starts. -/
def SpanDisjoint (a b : Span) : Prop :=
  a.«end» ≤ b.start ∨ b.«end» ≤ a.start

instance (a b : Span) : Decidable (SpanDisjoint a b) :=
  inferInstanceAs (Decidable (_ ∨ _))

/- ## Spec-side rendering of the tabular extractor's output -/

/-- The lines of one record block as the spec words them: one line stating
the 0-based ordinal index, then one `column: value` line per column in
declared column order, then one blank line. -/
def csvSpecBlockLines (columns : List Str) (i : Nat) (r : List Str) : List Str :=
  ("Index: ".data ++ (toString i).data)
    :: (columns.zip r).map (fun p => p.1 ++ ": ".data ++ p.2)
    ++ [[]]

/-- One record block rendered: each line terminated by a newline. -/
def csvSpecBlock (columns : List Str) (i : Nat) (r : List Str) : Str :=
  ((csvSpecBlockLines columns i r).map (fun line => line ++ "\n".data)).flatten

/-- The spec's description of the whole tabular output: exactly one block per
record, in original row order, with 0-based ordinal indices. -/
def csvSpecOutput (columns : List Str) (records : List (List Str)) : Str :=
  (records.enum.map (fun ir => csvSpecBlock columns ir.1 ir.2)).flatten

/- ## Concrete data used by witnesses and counterexamples -/

/-- A sample finding: an SSN-like value with a detection-stage type. -/
def sampleFinding : PhiInstance :=
  { value := some "123-45-6789".data, phiTypeAttr := none,
    typeAttr := some "SSN".data, rationaleAttr := none }

/-- Sample table columns for the tabular-extractor witness. -/
def sampleColumns : List Str := ["name".data, "age".data]

/-- Sample table records for the tabular-extractor witness. -/
def sampleRecords : List (List Str) :=
  [["bob".data, "4".data], ["amy".data, "7".data]]

/-- A sample accepted span covering `[0, 2)` of a text. -/
def sampleSpan : Span :=
  { start := 0, «end» := 2, value := "ab".data, phiType := "T".data,
    orig := sampleFinding }

/-- A sample span at `[5, 7)`, listed before `witSpanB` to exercise the
descending sort. -/
def witSpanA : Span :=
  { start := 5, «end» := 7, value := "fg".data, phiType := "T".data,
    orig := sampleFinding }

/-- A sample span at `[0, 2)`. -/
def witSpanB : Span :=
  { start := 0, «end» := 2, value := "ab".data, phiType := "T".data,
    orig := sampleFinding }

/-- A finding whose value has a trailing space. -/
def trailingSpaceFinding : PhiInstance :=
  { value := some "x ".data, phiTypeAttr := none,
    typeAttr := none, rationaleAttr := none }

/-- A finding whose value is a non-empty string of whitespace only. -/
def whitespaceFinding : PhiInstance :=
  { value := some " ".data, phiTypeAttr := none,
    typeAttr := some "T1".data, rationaleAttr := none }

/-- A finding whose value is the whole sample text `"ab"`. -/
def coveringFinding : PhiInstance :=
  { value := some "ab".data, phiTypeAttr := none,
    typeAttr := some "T2".data, rationaleAttr := none }

/-! ## Theorems -/

/-- C5: the Input Router is a pure total function on the three supported
tags, mapping `png` to the OCR extractor, `pdf` to the PDF extractor and
`csv` to the CSV extractor, and failing with the unsupported-format error for
every other tag. -/
theorem C5_input_router_total (file_ext : Str) :
    input_router "png".data = .ok .ocr ∧
    input_router "pdf".data = .ok .pdfParser ∧
    input_router "csv".data = .ok .csvParser ∧
    (file_ext ≠ "png".data → file_ext ≠ "pdf".data → file_ext ≠ "csv".data →
      input_router file_ext = .error "Invalid file type".data) := by
  refine ⟨rfl, rfl, rfl, fun h1 h2 h3 => ?_⟩
  simp [input_router, h1, h2, h3]

/-- Witness for C5: the unsupported tag `txt` is rejected. -/
theorem C5_input_router_total_witness :
    input_router "txt".data = .error "Invalid file type".data :=
  (C5_input_router_total "txt".data).2.2.2 (by decide) (by decide) (by decide)

/-- C9: the Span Resolver applied to an empty Finding list, or to a findings
argument that is not a list, returns the text unchanged. -/
theorem C9_highlight_identity_on_trivial_input (text : Str) :
    highlight_phi_instances text .notList = text ∧
    highlight_phi_instances text (.ofList []) = text :=
  ⟨rfl, rfl⟩

/-- C1: on an unparsable service response the Detection Stage appends an
empty list while the Classification Stage appends a copy of the previous
history entry; for a non-empty previous entry the two resulting histories
differ. -/
theorem C1_asymmetric_parse_fallbacks (jsonLoads : Str → Option PhiList)
    (cDet cCls : Str) (instances : List PhiList) (prev : PhiList)
    (hprev : instances.getLast? = some prev)
    (hdet : detectionParseFails jsonLoads cDet = true)
    (hcls : rationaleParseFails jsonLoads cCls = true) :
    phi_identifier jsonLoads cDet instances = instances ++ [[]] ∧
    phi_rationale jsonLoads cCls instances = some (instances ++ [prev]) ∧
    (prev ≠ [] → instances ++ [[]] ≠ instances ++ [prev]) := by
  refine ⟨?_, ?_, fun hne heq => hne ?_⟩
  · unfold phi_identifier detectionParsed
    unfold detectionParseFails at hdet
    by_cases hb : (pyStrip cDet).head? = some '['
    · simp only [hb, if_true] at hdet ⊢
      rw [Option.isNone_iff_eq_none] at hdet
      rw [hdet]
    · simp only [hb, if_false] at hdet ⊢
      cases hbs : bracketSlice cDet with
      | some s =>
        rw [hbs] at hdet
        rw [Option.isNone_iff_eq_none] at hdet
        simp [hdet]
      | none => rfl
  · unfold phi_rationale rationaleParsed
    rw [hprev]
    unfold rationaleParseFails at hcls
    by_cases hb : (pyStrip (pyStrip cCls)).head? = some '['
    · simp only [hb, if_true] at hcls ⊢
      rw [Option.isNone_iff_eq_none] at hcls
      rw [hcls]
    · simp only [hb, if_false] at hcls ⊢
      cases hbs : bracketSlice (pyStrip cCls) with
      | some s =>
        rw [hbs] at hcls
        rw [Option.isNone_iff_eq_none] at hcls
        simp [hcls]
      | none => rfl
  · have := List.append_cancel_left heq
    exact (List.cons_eq_cons.mp this).1.symm

/-- Witness for C1: a bracket-free garbage response with a raising JSON
parser, against a history whose last entry holds one finding. -/
theorem C1_asymmetric_parse_fallbacks_witness :
    phi_identifier (fun _ => none) "oops".data [[sampleFinding]] =
      [[sampleFinding], []] ∧
    phi_rationale (fun _ => none) "oops".data [[sampleFinding]] =
      some [[sampleFinding], [sampleFinding]] ∧
    ([[sampleFinding], []] : List PhiList) ≠ [[sampleFinding], [sampleFinding]] := by
  have h := C1_asymmetric_parse_fallbacks (fun _ => none) "oops".data "oops".data
    [[sampleFinding]] [sampleFinding] (by decide) (by decide) (by decide)
  exact ⟨h.1, h.2.1, h.2.2 (by decide)⟩

/-- C6: each stage appends exactly one entry to the findings history: from an
empty history, Detection yields length 1 and Classification then yields
length 2, with the earlier entries preserved as a prefix, for every service
response. -/
theorem C6_history_append_counts (j1 j2 : Str → Option PhiList) (c1 c2 : Str)
    (h : List PhiList) :
    (∃ l, phi_identifier j1 c1 h = h ++ [l]) ∧
    (phi_identifier j1 c1 []).length = 1 ∧
    (∃ r l, phi_rationale j2 c2 (phi_identifier j1 c1 []) = some r ∧
      r = phi_identifier j1 c1 [] ++ [l] ∧ r.length = 2) := by
  have hid : ∀ (hh : List PhiList), ∃ l, phi_identifier j1 c1 hh = hh ++ [l] := by
    intro hh
    unfold phi_identifier
    cases detectionParsed j1 c1 with
    | some l => exact ⟨l, rfl⟩
    | none => exact ⟨[], rfl⟩
  obtain ⟨l1, hl1⟩ := hid []
  refine ⟨hid h, by rw [hl1]; rfl, ?_⟩
  rw [hl1]
  simp only [List.nil_append]
  cases hrp : rationaleParsed j2 (pyStrip c2) l1 with
  | some l =>
    refine ⟨[l1] ++ [l], l, ?_, rfl, rfl⟩
    unfold phi_rationale
    simp [hrp]
  | none =>
    refine ⟨[l1] ++ [l1], l1, ?_, rfl, rfl⟩
    unfold phi_rationale
    simp [hrp]

/-- Helper: a left fold of comma-item appends distributes over an appended
initial accumulator. -/
theorem foldl_comma_init : ∀ (l : List Str) (x y : Str),
    l.foldl (fun acc item => acc ++ " ".data ++ item ++ ",".data) (x ++ y)
      = x ++ l.foldl (fun acc item => acc ++ " ".data ++ item ++ ",".data) y := by
  intro l
  induction l with
  | nil => intro x y; simp
  | cons a l ih =>
    intro x y
    rw [List.foldl_cons, List.foldl_cons]
    rw [show x ++ y ++ " ".data ++ a ++ ",".data
        = x ++ (y ++ " ".data ++ a ++ ",".data) by simp [List.append_assoc]]
    exact ih x _

/-- Helper: the clause body built by `get_exclusion` — the comma-item fold,
the conditional `" and"`, and the final `" last."` — renders the comma/`and`
list of the spec. -/
theorem exclusion_body_eq : ∀ (rest : List Str) (f : Str),
    ((f :: rest).dropLast.foldl
        (fun acc item => acc ++ " ".data ++ item ++ ",".data) [])
      ++ (if (f :: rest).length > 1 then " and".data else [])
      ++ " ".data ++ (f :: rest).getLast (List.cons_ne_nil f rest) ++ ".".data
      = " ".data ++ commaAnd (f :: rest) ++ ".".data := by
  intro rest
  induction rest with
  | nil => intro f; simp [commaAnd]
  | cons b rest' ih =>
    intro f
    cases rest' with
    | nil => simp [commaAnd]
    | cons c rest'' =>
      have key := ih b
      have split : ((f :: b :: c :: rest'').dropLast.foldl
          (fun acc item => acc ++ " ".data ++ item ++ ",".data) [])
          = (" ".data ++ f ++ ",".data) ++ ((b :: c :: rest'').dropLast.foldl
              (fun acc item => acc ++ " ".data ++ item ++ ",".data) []) := by
        rw [show (f :: b :: c :: rest'').dropLast
            = f :: (b :: c :: rest'').dropLast by simp]
        rw [List.foldl_cons]
        rw [show ([] ++ " ".data ++ f ++ ",".data : Str)
            = (" ".data ++ f ++ ",".data) ++ [] by simp]
        exact foldl_comma_init _ _ _
      rw [split]
      rw [show commaAnd (f :: b :: c :: rest'')
          = f ++ ", ".data ++ commaAnd (b :: c :: rest'') from rfl]
      simp only [List.length_cons, List.getLast_cons_cons] at key ⊢
      rw [if_pos (by omega)] at key
      rw [if_pos (by omega)]
      simp only [List.append_assoc] at key ⊢
      rw [key]
      simp [List.append_assoc]

/-- C7: the exclusion clause is empty for an empty filter, and for a
non-empty filter `[A, …, C]` it renders as
`" except PHI instances of the type A, …, and C."` — all but the last
category followed by commas, `and` before the last when there is more than
one, and a final period. -/
theorem C7_exclusion_clause_rendering (filter_list : List Str) :
    get_exclusion filter_list = exclusionClauseSpec filter_list := by
  cases filter_list with
  | nil => rfl
  | cons f rest =>
    simp only [get_exclusion, exclusionClauseSpec]
    have key := exclusion_body_eq rest f
    simp only [List.append_assoc] at key ⊢
    rw [key, ← List.append_assoc]
    rfl

/-- Helper: a left fold appending one `col: value` line per zipped pair,
rewritten as a map-and-flatten. -/
theorem foldl_colvals (l : List (Str × Str)) : ∀ (init : Str),
    l.foldl (fun t p => t ++ p.2 ++ ": ".data ++ p.1 ++ "\n".data) init
      = init ++ (l.map (fun p => p.2 ++ ": ".data ++ p.1 ++ "\n".data)).flatten := by
  induction l with
  | nil => intro init; simp
  | cons a l ih =>
    intro init
    rw [List.foldl_cons, ih]
    simp [List.append_assoc]

/-- Helper: mapping the `col: value` rendering over `values.zip columns`
equals mapping the flipped rendering over `columns.zip values`. -/
theorem zip_colvals_swap : ∀ (r columns : List Str),
    List.map (fun p => p.2 ++ ": ".data ++ p.1 ++ "\n".data) (r.zip columns)
      = List.map (fun p => (p.1 ++ ": ".data ++ p.2) ++ "\n".data) (columns.zip r) := by
  intro r
  induction r with
  | nil => intro columns; cases columns <;> simp
  | cons a r' ih =>
    intro columns
    cases columns with
    | nil => simp
    | cons b cols =>
      simp only [List.zip_cons_cons, List.map_cons]
      rw [ih cols]

/-- Helper: one serialized row of `csv_parser_tool` equals the spec-side
record block. -/
theorem csv_block_eq (columns : List Str) (n : Nat) (r : List Str) :
    "Index: ".data ++ (toString n).data ++ "\n".data
      ++ ((r.zip columns).map (fun p => p.2 ++ ": ".data ++ p.1 ++ "\n".data)).flatten
      ++ "\n".data
    = csvSpecBlock columns n r := by
  rw [zip_colvals_swap]
  simp only [csvSpecBlock, csvSpecBlockLines, List.map_cons, List.map_append,
    List.map_nil, List.map_map, List.flatten_cons, List.flatten_append,
    List.flatten_nil, List.append_nil, List.nil_append, List.append_assoc]
  refine congrArg _ (congrArg _ (congrArg _ (congrArg₂ _ ?_ rfl)))
  refine congrArg List.flatten (List.map_congr_left fun p _ => ?_)
  simp [Function.comp, List.append_assoc]

/-- Helper: the row loop of `csv_parser_tool`, started at any row index and
any accumulated text, appends exactly the spec-side blocks of the remaining
records. -/
theorem csv_rows_eq (columns : List Str) :
    ∀ (records : List (List Str)) (n : Nat) (init : Str),
    (List.enumFrom n records).foldl
      (fun text ir =>
        let text := text ++ "Index: ".data ++ (toString ir.1).data ++ "\n".data
        let text := (ir.2.zip columns).foldl
          (fun t p => t ++ p.2 ++ ": ".data ++ p.1 ++ "\n".data) text
        text ++ "\n".data)
      init
    = init ++ ((List.enumFrom n records).map
        (fun ir => csvSpecBlock columns ir.1 ir.2)).flatten := by
  intro records
  induction records with
  | nil => intro n init; simp
  | cons r rs ih =>
    intro n init
    rw [List.enumFrom_cons, List.foldl_cons]
    show (List.enumFrom (n + 1) rs).foldl _
        ((r.zip columns).foldl _
          (init ++ "Index: ".data ++ (toString n).data ++ "\n".data)
          ++ "\n".data) = _
    rw [foldl_colvals, ih]
    rw [List.map_cons, List.flatten_cons]
    rw [← csv_block_eq columns n r]
    simp [List.append_assoc]

/-- C8: for a table whose records each carry one value per column, the
tabular extractor emits exactly one block per record in original row order;
the block for record `i` is the line `Index: i` (0-based), one
`column: value` line per column in declared order, and a blank separator
line. -/
theorem C8_csv_serialization (columns : List Str) (records : List (List Str))
    (hlen : ∀ r ∈ records, r.length = columns.length) :
    csv_parser_tool columns records = csvSpecOutput columns records ∧
    (records.enum.map (fun ir => csvSpecBlock columns ir.1 ir.2)).length
      = records.length ∧
    (∀ ir ∈ records.enum,
      (csvSpecBlockLines columns ir.1 ir.2).length = columns.length + 2) := by
  refine ⟨?_, by simp, ?_⟩
  · show records.enum.foldl _ [] = _
    rw [show records.enum = List.enumFrom 0 records from rfl]
    rw [csv_rows_eq]
    simp only [csvSpecOutput, List.nil_append]
    rfl
  · rintro ⟨i, r⟩ hmem
    have hr : r ∈ records := by
      obtain ⟨-, -, h⟩ := List.mem_enumFrom hmem
      exact h ▸ List.getElem_mem _
    have hzip : (columns.zip r).length = columns.length := by
      rw [List.length_zip, hlen r hr, Nat.min_self]
    simp [csvSpecBlockLines, hzip]

/-- Witness for C8: a two-column, two-record table serializes to the
spec-side block rendering. -/
theorem C8_csv_serialization_witness :
    csv_parser_tool sampleColumns sampleRecords
      = csvSpecOutput sampleColumns sampleRecords ∧
    (sampleRecords.enum.map
      (fun ir => csvSpecBlock sampleColumns ir.1 ir.2)).length
      = sampleRecords.length ∧
    (∀ ir ∈ sampleRecords.enum,
      (csvSpecBlockLines sampleColumns ir.1 ir.2).length
        = sampleColumns.length + 2) :=
  C8_csv_serialization sampleColumns sampleRecords (by decide)

/-- Helper: a successful `pyFindAux` search returns a position in range that
matches, and no earlier position in range matches. -/
theorem pyFindAux_some {text value : Str} : ∀ {n start p : Nat},
    pyFindAux text value n start = some p →
    start ≤ p ∧ p < start + n ∧ value.isPrefixOf (text.drop p) = true ∧
      ∀ q, start ≤ q → q < p → value.isPrefixOf (text.drop q) = false := by
  intro n
  induction n with
  | zero => intro start p h; simp [pyFindAux] at h
  | succ n ih =>
    intro start p h
    rw [pyFindAux] at h
    by_cases hm : value.isPrefixOf (text.drop start) = true
    · rw [if_pos hm] at h
      obtain rfl : start = p := Option.some_injective _ h
      exact ⟨Nat.le_refl _, by omega, hm, fun q h1 h2 => absurd (Nat.lt_of_le_of_lt h1 h2) (Nat.lt_irrefl _)⟩
    · rw [if_neg hm] at h
      obtain ⟨h1, h2, h3, h4⟩ := ih h
      refine ⟨by omega, by omega, h3, fun q hq1 hq2 => ?_⟩
      rcases Nat.eq_or_lt_of_le hq1 with rfl | hlt
      · exact Bool.eq_false_iff.mpr hm
      · exact h4 q hlt hq2

/-- Helper: a failed `pyFindAux` search means no position in range
matches. -/
theorem pyFindAux_none {text value : Str} : ∀ {n start : Nat},
    pyFindAux text value n start = none →
    ∀ q, start ≤ q → q < start + n → value.isPrefixOf (text.drop q) = false := by
  intro n
  induction n with
  | zero => intro start _ q h1 h2; omega
  | succ n ih =>
    intro start h q h1 h2
    rw [pyFindAux] at h
    by_cases hm : value.isPrefixOf (text.drop start) = true
    · rw [if_pos hm] at h; exact absurd h (by simp)
    · rw [if_neg hm] at h
      rcases Nat.eq_or_lt_of_le h1 with rfl | hlt
      · exact Bool.eq_false_iff.mpr hm
      · exact ih h q hlt (by omega)

/-- Helper: `text.find(value, start) = pos` means `pos` is the least
matching position at or after `start`, and lies within the text. -/
theorem pyFind_some {text value : Str} {start p : Nat}
    (h : pyFind text value start = some p) :
    start ≤ p ∧ p ≤ text.length ∧ value.isPrefixOf (text.drop p) = true ∧
      ∀ q, start ≤ q → q < p → value.isPrefixOf (text.drop q) = false := by
  unfold pyFind at h
  obtain ⟨h1, h2, h3, h4⟩ := pyFindAux_some h
  exact ⟨h1, by omega, h3, h4⟩

/-- Helper: `text.find(value, start) = -1` means no position at or after
`start` matches. -/
theorem pyFind_none {text value : Str} {start : Nat}
    (h : pyFind text value start = none) :
    ∀ q, start ≤ q → q ≤ text.length → value.isPrefixOf (text.drop q) = false := by
  unfold pyFind at h
  intro q h1 h2
  exact pyFindAux_none h q h1 (by omega)

/-- Helper: when the search loop returns a position, that position is an
occurrence, does not conflict with any accepted span, and every earlier
occurrence (from the loop's starting offset) conflicts. -/
theorem searchPosAux_some {text value : Str} {acc : List Span} : ∀ {fuel s p : Nat},
    searchPosAux text value acc fuel s = some p →
    p ≤ text.length ∧ value.isPrefixOf (text.drop p) = true ∧
      overlapsExisting p value.length acc = false ∧
      ∀ q, s ≤ q → q < p → value.isPrefixOf (text.drop q) = true →
        overlapsExisting q value.length acc = true := by
  intro fuel
  induction fuel with
  | zero => intro s p h; simp [searchPosAux] at h
  | succ fuel ih =>
    intro s p h
    rw [searchPosAux] at h
    cases hf : pyFind text value s with
    | none => rw [hf] at h; exact absurd h (by simp)
    | some pos =>
      rw [hf] at h
      replace h : (if overlapsExisting pos value.length acc = true
          then searchPosAux text value acc fuel (pos + 1) else some pos)
          = some p := h
      obtain ⟨hp1, hp2, hp3, hp4⟩ := pyFind_some hf
      by_cases hov : overlapsExisting pos value.length acc = true
      · rw [if_pos hov] at h
        obtain ⟨g1, g2, g3, g4⟩ := ih h
        refine ⟨g1, g2, g3, fun q hq1 hq2 hq3 => ?_⟩
        rcases Nat.lt_or_ge q pos with hlt | hge
        · exact absurd hq3 (by simp [hp4 q hq1 hlt])
        · rcases Nat.eq_or_lt_of_le hge with rfl | hgt
          · exact hov
          · exact g4 q hgt hq2 hq3
      · rw [if_neg hov] at h
        obtain rfl : pos = p := Option.some_injective _ h
        refine ⟨hp2, hp3, Bool.eq_false_iff.mpr hov, fun q hq1 hq2 hq3 => ?_⟩
        exact absurd hq3 (by simp [hp4 q hq1 hq2])

/-- Helper: when the search loop gives up, every occurrence from its
starting offset conflicts with some accepted span — provided the fuel covers
the remaining candidate offsets, which `searchPos`'s `text.length + 2`
always does since `search_start` grows strictly and never exceeds
`text.length + 1`. -/
theorem searchPosAux_none {text value : Str} {acc : List Span} : ∀ {fuel s : Nat},
    text.length + 2 ≤ fuel + s →
    searchPosAux text value acc fuel s = none →
    ∀ q, s ≤ q → q ≤ text.length → value.isPrefixOf (text.drop q) = true →
      overlapsExisting q value.length acc = true := by
  intro fuel
  induction fuel with
  | zero => intro s hfs h q hq1 hq2 hq3; omega
  | succ fuel ih =>
    intro s hfs h q hq1 hq2 hq3
    rw [searchPosAux] at h
    cases hf : pyFind text value s with
    | none => exact absurd hq3 (by simp [pyFind_none hf q hq1 hq2])
    | some pos =>
      rw [hf] at h
      replace h : (if overlapsExisting pos value.length acc = true
          then searchPosAux text value acc fuel (pos + 1) else some pos)
          = none := h
      obtain ⟨hp1, hp2, hp3, hp4⟩ := pyFind_some hf
      by_cases hov : overlapsExisting pos value.length acc = true
      · rw [if_pos hov] at h
        rcases Nat.lt_or_ge q pos with hlt | hge
        · exact absurd hq3 (by simp [hp4 q hq1 hlt])
        · rcases Nat.eq_or_lt_of_le hge with rfl | hgt
          · exact hov
          · exact ih (by omega) h q hgt hq2 hq3
      · rw [if_neg hov] at h; exact absurd h (by simp)

/-- Helper: a successful span search accepts the leftmost non-conflicting
occurrence. -/
theorem searchPos_some {text value : Str} {acc : List Span} {p : Nat}
    (h : searchPos text value acc = some p) :
    occursAt text value p ∧ overlapsExisting p value.length acc = false ∧
      ∀ q, q < p → occursAt text value q →
        overlapsExisting q value.length acc = true := by
  unfold searchPos at h
  obtain ⟨g1, g2, g3, g4⟩ := searchPosAux_some h
  exact ⟨⟨g1, g2⟩, g3, fun q hq ho => g4 q (Nat.zero_le q) hq ho.2⟩

/-- Helper: a failed span search means every occurrence conflicts with an
already accepted span. -/
theorem searchPos_none {text value : Str} {acc : List Span}
    (h : searchPos text value acc = none) :
    ∀ q, occursAt text value q →
      overlapsExisting q value.length acc = true := by
  unfold searchPos at h
  intro q ho
  exact searchPosAux_none (by omega) h q (Nat.zero_le q) ho.1 ho.2

/-- C2 (amended): for each Finding with a non-empty `value`, the resolver
accepts exactly the leftmost occurrence of the whitespace-stripped value
whose range does not intersect any already-accepted range, appending at most
one span; if every occurrence conflicts or the stripped value is absent, the
Finding contributes nothing and no error is raised.  (The unamended claim
spoke of occurrences of the value itself; the code searches for
`str(value).strip()`.) -/
theorem C2_leftmost_nonconflicting_stripped_value (text : Str) (acc : List Span) (inst : PhiInstance)
    (v : Str) (hv : inst.value = some v) (hne : v ≠ []) :
    (∃ p, searchPos text (pyStrip v) acc = some p ∧
        processInstance text acc inst = acc ++
          [{ start := p, «end» := p + (pyStrip v).length, value := pyStrip v,
             phiType := instPhiType inst, orig := inst }] ∧
        occursAt text (pyStrip v) p ∧
        overlapsExisting p (pyStrip v).length acc = false ∧
        (∀ q, q < p → occursAt text (pyStrip v) q →
          overlapsExisting q (pyStrip v).length acc = true))
    ∨ (searchPos text (pyStrip v) acc = none ∧
        processInstance text acc inst = acc ∧
        ∀ q, occursAt text (pyStrip v) q →
          overlapsExisting q (pyStrip v).length acc = true) := by
  cases hs : searchPos text (pyStrip v) acc with
  | some p =>
    left
    obtain ⟨h1, h2, h3⟩ := searchPos_some hs
    exact ⟨p, rfl, by simp [processInstance, hv, hne, hs], h1, h2, h3⟩
  | none =>
    right
    exact ⟨rfl, by simp [processInstance, hv, hne, hs], searchPos_none hs⟩

/-- Helper: processing one instance preserves pairwise disjointness of the
accepted spans, because a new span is only accepted when the overlap test
against every existing span fails. -/
theorem processInstance_pairwise (text : Str) (inst : PhiInstance)
    {acc : List Span} (h : acc.Pairwise SpanDisjoint) :
    (processInstance text acc inst).Pairwise SpanDisjoint := by
  cases hvv : inst.value with
  | none => simpa [processInstance, hvv] using h
  | some v =>
    by_cases hv : v = []
    · simpa [processInstance, hvv, hv] using h
    · cases hs : searchPos text (pyStrip v) acc with
      | none => simpa [processInstance, hvv, hv, hs] using h
      | some p =>
        have heq : processInstance text acc inst = acc ++
            [{ start := p, «end» := p + (pyStrip v).length, value := pyStrip v,
               phiType := instPhiType inst, orig := inst }] := by
          simp [processInstance, hvv, hv, hs]
        have h2 := (searchPos_some hs).2.1
        rw [heq, List.pairwise_append]
        refine ⟨h, List.pairwise_singleton _ _, fun a ha b hb => ?_⟩
        rw [List.mem_singleton] at hb
        subst hb
        unfold overlapsExisting at h2
        have hd := List.any_eq_false.mp h2 a ha
        simp at hd
        show a.«end» ≤ p ∨ p + (pyStrip v).length ≤ a.start
        omega

/-- Helper: the resolver loop preserves pairwise disjointness. -/
theorem resolveSpans_pairwise_aux (text : Str) :
    ∀ (insts : List PhiInstance) (acc : List Span),
    acc.Pairwise SpanDisjoint →
    (insts.foldl (processInstance text) acc).Pairwise SpanDisjoint := by
  intro insts
  induction insts with
  | nil => intro acc h; exact h
  | cons i is ih => intro acc h; exact ih _ (processInstance_pairwise text i h)

/-- C3: the set of spans accepted by the Span Resolver is pairwise
non-overlapping — for any two accepted spans, one ends at or before the
other starts. -/
theorem C3_resolved_spans_pairwise_disjoint (text : Str) (phi_instances : List PhiInstance) :
    (resolveSpans text phi_instances).Pairwise SpanDisjoint :=
  resolveSpans_pairwise_aux text phi_instances [] List.Pairwise.nil

/-- C10: the resolver matches the whitespace-stripped value while guarding
on the unstripped one, so a Finding whose value is a non-empty all-whitespace
string strips to the empty string and is accepted as a zero-length span at
offset 0 rather than skipped. -/
theorem C10_whitespace_only_value_zero_length_span (text : Str) (acc : List Span) (inst : PhiInstance)
    (v : Str) (hv : inst.value = some v) (hne : v ≠ [])
    (hws : ∀ c ∈ v, pyIsSpace c = true) :
    pyStrip v = [] ∧
    processInstance text acc inst
      = acc ++ [{ start := 0, «end» := 0, value := [],
                  phiType := instPhiType inst, orig := inst }] := by
  have hstrip : pyStrip v = [] := by
    have hd : v.dropWhile pyIsSpace = [] := List.dropWhile_eq_nil_iff.mpr hws
    simp [pyStrip, hd]
  have hov : overlapsExisting 0 0 acc = false := by
    unfold overlapsExisting
    rw [List.any_eq_false]
    intro e he
    simp
  have hsp : searchPos text [] acc = some 0 := by
    unfold searchPos
    rw [searchPosAux]
    have hpf : pyFind text [] 0 = some 0 := by
      unfold pyFind
      simp only [Nat.sub_zero]
      rw [pyFindAux]
      simp
    rw [hpf]
    simp [hov]
  refine ⟨hstrip, ?_⟩
  simp [processInstance, hv, hne, hstrip, hsp]

/-- Helper: splicing spans from highest start to lowest (a right fold over
the ascending list) equals the reference simultaneous annotation, whenever
the ascending spans form a non-overlapping chain within the text. -/
theorem foldr_splice_eq_refAnnotate (t : Str) :
    ∀ (asc : List Span) (i : Nat), spanChainB t.length i asc = true →
    asc.foldr (fun sp acc => spliceOne acc sp) t
      = t.take i ++ refAnnotate t i asc := by
  intro asc
  induction asc with
  | nil =>
    intro i _
    simp [refAnnotate]
  | cons sp rest ih =>
    intro i hc
    rw [spanChainB] at hc
    simp only [Bool.and_eq_true, decide_eq_true_eq] at hc
    obtain ⟨⟨⟨hi, hse⟩, hel⟩, hrest⟩ := hc
    rw [List.foldr_cons]
    have hX := ih sp.«end» hrest
    show spliceOne (rest.foldr (fun sp acc => spliceOne acc sp) t) sp
        = t.take i ++ refAnnotate t i (sp :: rest)
    rw [hX]
    unfold spliceOne
    have hlen : (t.take sp.«end»).length = sp.«end» := by
      rw [List.length_take]
      omega
    have htake : (t.take sp.«end» ++ refAnnotate t sp.«end» rest).take sp.start
        = t.take sp.start := by
      rw [List.take_append_of_le_length (by omega), List.take_take]
      congr 1
      omega
    have hdrop : (t.take sp.«end» ++ refAnnotate t sp.«end» rest).drop sp.«end»
        = refAnnotate t sp.«end» rest := List.drop_left' hlen
    rw [htake, hdrop]
    rw [refAnnotate]
    have hsplit : t.take sp.start
        = t.take i ++ (t.drop i).take (sp.start - i) := by
      rw [← List.take_add]
      congr 1
      omega
    rw [hsplit]
    simp [List.append_assoc]

/-- C4 (amended): when the accepted spans, sorted by descending start and
read back in ascending order, form a non-overlapping chain within the text
(each span ends no later than the next begins — in particular whenever no
zero-length span shares its start with another span), the sequential splice
at original offsets equals the reference simultaneous annotation.  (The
unamended claim asserted this for every pairwise non-overlapping accepted
set; a zero-length span sharing a start refutes it, see the
counterexample.) -/
theorem C4_descending_splice_eq_reference (t : Str) (spans : List Span)
    (h : spanChainB t.length 0 ((sortDescByStart spans).reverse) = true) :
    applyHighlighting t spans
      = refAnnotate t 0 ((sortDescByStart spans).reverse) := by
  have key := foldr_splice_eq_refAnnotate t ((sortDescByStart spans).reverse) 0 h
  rw [applyHighlighting, ← List.reverse_reverse (sortDescByStart spans),
    List.foldl_reverse]
  simpa using key

/-- Counterexample for C2 as stated: the Finding value `"x "` does not occur
in the text `"ax"` (its leftmost occurrence does not exist), yet the
resolver contributes the span `[1, 2)` — it searched for the stripped value
`"x"`. -/
theorem C2_leftmost_occurrence_counterexample :
    pyFind "ax".data "x ".data 0 = none ∧
    resolveSpans "ax".data [trailingSpaceFinding]
      = [{ start := 1, «end» := 2, value := "x".data,
           phiType := "Unknown".data, orig := trailingSpaceFinding }] :=
  ⟨by decide, by decide⟩

/-- Witness for C2 (amended): in `"abab"` with `[0, 2)` already accepted,
the value `"ab"` is accepted at its leftmost non-conflicting occurrence. -/
theorem C2_leftmost_nonconflicting_stripped_value_witness :
    (∃ p, searchPos "abab".data (pyStrip "ab".data) [sampleSpan] = some p ∧
        processInstance "abab".data [sampleSpan] coveringFinding = [sampleSpan] ++
          [{ start := p, «end» := p + (pyStrip "ab".data).length,
             value := pyStrip "ab".data,
             phiType := instPhiType coveringFinding, orig := coveringFinding }] ∧
        occursAt "abab".data (pyStrip "ab".data) p ∧
        overlapsExisting p (pyStrip "ab".data).length [sampleSpan] = false ∧
        (∀ q, q < p → occursAt "abab".data (pyStrip "ab".data) q →
          overlapsExisting q (pyStrip "ab".data).length [sampleSpan] = true))
    ∨ (searchPos "abab".data (pyStrip "ab".data) [sampleSpan] = none ∧
        processInstance "abab".data [sampleSpan] coveringFinding = [sampleSpan] ∧
        ∀ q, occursAt "abab".data (pyStrip "ab".data) q →
          overlapsExisting q (pyStrip "ab".data).length [sampleSpan] = true) :=
  C2_leftmost_nonconflicting_stripped_value "abab".data [sampleSpan] coveringFinding "ab".data rfl (by decide)

/-- Witness for C10: a one-space value against `"ab"` with a span already
accepted yields a zero-length span at offset 0. -/
theorem C10_whitespace_only_value_zero_length_span_witness :
    pyStrip " ".data = [] ∧
    processInstance "ab".data [sampleSpan] whitespaceFinding
      = [sampleSpan] ++ [{ start := 0, «end» := 0, value := [],
                           phiType := instPhiType whitespaceFinding,
                           orig := whitespaceFinding }] :=
  C10_whitespace_only_value_zero_length_span "ab".data [sampleSpan] whitespaceFinding " ".data rfl (by decide) (by decide)

/-- Counterexample for C4 as stated: a whitespace-only Finding and a Finding
covering the whole text `"ab"` yield the pairwise non-overlapping accepted
spans `[0, 0)` and `[0, 2)`, but the sequential splice corrupts the
zero-length span's markup, so the result differs from the reference
simultaneous annotation. -/
theorem C4_descending_splice_counterexample :
    (resolveSpans "ab".data [whitespaceFinding, coveringFinding]).Pairwise SpanDisjoint ∧
    applyHighlighting "ab".data
        (resolveSpans "ab".data [whitespaceFinding, coveringFinding])
      ≠ refAnnotate "ab".data 0
          ((sortDescByStart
            (resolveSpans "ab".data [whitespaceFinding, coveringFinding])).reverse) :=
  ⟨by decide, by decide⟩

/-- Witness for C4 (amended): two disjoint spans given in unsorted order
splice to the reference annotation. -/
theorem C4_descending_splice_eq_reference_witness :
    applyHighlighting "abcdefgh".data [witSpanA, witSpanB]
      = refAnnotate "abcdefgh".data 0
          ((sortDescByStart [witSpanA, witSpanB]).reverse) :=
  C4_descending_splice_eq_reference "abcdefgh".data [witSpanA, witSpanB] (by decide)

end PhiDetector
